import Mathlib

/-!
A shallow embedding of the AdventureMachine text-adventure engine
(`adventure-machine.js`) together with proofs about its command dispatch,
navigation, inventory, NPC and scheduler behaviour.

JavaScript objects used as string-keyed dictionaries are modelled as
insertion-ordered association lists with unique keys maintained by the
update operation (assignment to an existing key keeps its position,
assignment to a fresh key appends).  `undefined`/`null` results are
modelled with `Option`.  Strings are Lean `String`s; the engine only
relies on ASCII case conversion, which `Char.toUpper` implements.
-/

namespace AdventureMachine

/-!
## JS string primitives

Executable models of the string operations the engine uses:
`toUpperCase` (per-character, which for the engine's ASCII command
words coincides with JS), `trim`, the `startsWith` polyfill from the
source (source line 20), and `indexOf(sub) >= 0` substring search.
-/

/-- `String.prototype.toUpperCase`, per character. -/
def upperL (s : List Char) : List Char := s.map Char.toUpper

/-- Whitespace removed by `String.prototype.trim`. -/
def isJsSpace (c : Char) : Bool :=
  c = ' ' || c = '\t' || c = '\n' || c = '\r' ||
  c = '\x0b' || c = '\x0c' || c = '\u00A0'

/-- `String.prototype.trim`. -/
def trimL (s : List Char) : List Char :=
  ((s.dropWhile isJsSpace).reverse.dropWhile isJsSpace).reverse

/-- The `startsWith` polyfill (source line 20): `s.slice(0, p.length) === p`. -/
def startsWithL : List Char → List Char → Bool
  | _, [] => true
  | [], _ :: _ => false
  | c :: cs, p :: ps => if c = p then startsWithL cs ps else false

/-- `s.indexOf(p) >= 0`: `p` occurs as a contiguous substring of `s`
(the empty pattern always occurs). -/
def substrL : List Char → List Char → Bool
  | [], p => p.isEmpty
  | c :: cs, p => startsWithL (c :: cs) p || substrL cs p

/-- Lookup in a JS-object-style association list: first binding wins. -/
def lookupAssoc {α : Type} : List (String × α) → String → Option α
  | [], _ => none
  | (k, v) :: rest, key => if k = key then some v else lookupAssoc rest key

/-- Assignment `obj[k] = v` on a JS-object-style association list:
replaces the value of the first binding of `k`, or appends a new binding. -/
def updAssoc {α : Type} : List (String × α) → String → α → List (String × α)
  | [], k, v => [(k, v)]
  | (k', v') :: rest, k, v =>
      if k' = k then (k', v) :: rest else (k', v') :: updAssoc rest k v

/-- Number of bindings of key `k` (1 for any reachable JS object). -/
def countKey {α : Type} (l : List (String × α)) (k : String) : Nat :=
  (l.filter (fun p => p.1 = k)).length

theorem lookupAssoc_updAssoc_self {α : Type} (l : List (String × α)) (k : String) (v : α) :
    lookupAssoc (updAssoc l k v) k = some v := by
  induction l with
  | nil => simp [updAssoc, lookupAssoc]
  | cons p rest ih =>
      by_cases h : p.1 = k
      · simp [updAssoc, lookupAssoc, h]
      · simp [updAssoc, lookupAssoc, h, ih]

theorem lookupAssoc_updAssoc_other {α : Type} (l : List (String × α)) (k k' : String) (v : α)
    (h : k' ≠ k) : lookupAssoc (updAssoc l k v) k' = lookupAssoc l k' := by
  induction l with
  | nil => simp [updAssoc, lookupAssoc, Ne.symm h]
  | cons p rest ih =>
      by_cases hp : p.1 = k
      · simp [updAssoc, lookupAssoc, hp, Ne.symm h]
      · simp [updAssoc, lookupAssoc, hp, ih]

theorem countKey_cons {α : Type} (p : String × α) (rest : List (String × α)) (k : String) :
    countKey (p :: rest) k = (if p.1 = k then 1 else 0) + countKey rest k := by
  by_cases hp : p.1 = k
  · simp [countKey, List.filter_cons, hp]
    omega
  · simp [countKey, List.filter_cons, hp]

theorem countKey_updAssoc {α : Type} (l : List (String × α)) (k : String) (v : α)
    (h : countKey l k ≤ 1) : countKey (updAssoc l k v) k = 1 := by
  induction l with
  | nil => simp [updAssoc, countKey, List.filter]
  | cons p rest ih =>
      by_cases hp : p.1 = k
      · have h0 : countKey rest k = 0 := by
          have hc := countKey_cons p rest k
          rw [hc, if_pos hp] at h
          omega
        rw [show updAssoc (p :: rest) k v = (p.1, v) :: rest from by simp [updAssoc, hp]]
        rw [countKey_cons, if_pos hp, h0]
      · have h1 : countKey rest k ≤ 1 := by
          have hc := countKey_cons p rest k
          rw [hc, if_neg hp] at h
          omega
        rw [show updAssoc (p :: rest) k v = (p.1, p.2) :: updAssoc rest k v from by
              simp [updAssoc, hp]]
        rw [countKey_cons, ih h1]
        simp [hp]

/-!
## Entities

`Item`, `Fixture` and `NPC` from the source.  Game callbacks
(`onUseCallback`, `onAskCallback`, ...) are story-supplied opaque
functions; they are modelled by numeric handles (`Option Nat`), `none`
meaning the callback is undefined.  Titles and descriptions are modelled
as plain strings (the string case of the source's string-or-function
fields).
-/

/-- `Item` (source line 979): something the player can examine, use or
potentially pick up.  `usable` and `collectable` default to `true`. -/
structure Item where
  id : String
  title : String
  description : String := ""
  onUseCallback : Option Nat := none
  usable : Bool := true
  collectable : Bool := true
deriving DecidableEq, Repr

/-- `Item.prototype.isCollectable` (source line 997). -/
def Item.isCollectable (it : Item) : Bool := it.collectable

/-- `Fixture` (source line 1009): an `Item` constructed with
`collectable = false`. -/
def Fixture (id title description : String) (onUseCallback : Option Nat)
    (usable : Bool) : Item :=
  { id := id, title := title, description := description,
    onUseCallback := onUseCallback, usable := usable, collectable := false }

/-- `NPC` (source line 818): a character with reaction callbacks and a
mutable `currentTopic` (initially `undefined`). -/
structure NPC where
  id : String
  title : String
  description : String := ""
  onAskCallback : Option Nat := none
  onTellCallback : Option Nat := none
  onTalkCallback : Option Nat := none
  onGiveCallback : Option Nat := none
  onUseCallback : Option Nat := none
  currentTopic : Option String := none
deriving DecidableEq, Repr

/-- The `BaseEntity` values an `Inventory` can hold (items and NPCs;
locations are kept in the game's own location map). -/
inductive Entity where
  | item : Item → Entity
  | npc : NPC → Entity
deriving DecidableEq, Repr

def Entity.id : Entity → String
  | .item it => it.id
  | .npc n => n.id

def Entity.title : Entity → String
  | .item it => it.title
  | .npc n => n.title

/-!
## Inventory

Source lines 1019-1073.  The backing JS object `this.items` is an
insertion-ordered association list.  `removeItem` writes `undefined`
into the slot instead of deleting the key, so a slot holds
`Option Entity` and a removed slot is `(key, none)` — a tombstone.
-/

structure Inventory where
  items : List (String × Option Entity) := []
deriving DecidableEq, Repr

/-- `Inventory.prototype.addItem` (source line 1029): `items[item.id] = item`. -/
def Inventory.addItem (inv : Inventory) (e : Entity) : Inventory :=
  ⟨updAssoc inv.items e.id (some e)⟩

/-- `Inventory.prototype.addItems` (source line 1037). -/
def Inventory.addItems (inv : Inventory) (es : List Entity) : Inventory :=
  es.foldl Inventory.addItem inv

/-- The `new Inventory(game, itemArray)` constructor path (source line 1019). -/
def Inventory.ofList (es : List Entity) : Inventory :=
  Inventory.addItems ⟨[]⟩ es

/-- `Inventory.prototype.getItem` (source line 1046): `return this.items[itemId]`;
both a missing key and a tombstoned slot read back as `undefined`. -/
def Inventory.getItem (inv : Inventory) (itemId : String) : Option Entity :=
  match lookupAssoc inv.items itemId with
  | some (some e) => some e
  | _ => none

/-- `Inventory.prototype.removeItem` (source line 1049):
`this.items[itemId] = undefined` (the key is kept as a tombstone;
assignment to a missing key creates it). -/
def Inventory.removeItem (inv : Inventory) (itemId : String) : Inventory :=
  ⟨updAssoc inv.items itemId none⟩

/-- `Inventory.prototype.takeItem` (source line 1052). -/
def Inventory.takeItem (inv : Inventory) (itemId : String) :
    Option Entity × Inventory :=
  (inv.getItem itemId, inv.removeItem itemId)

/-- Iteration core of `Inventory.prototype.findItemByName` (source line 1059):
walk the slots in insertion order, skip tombstones, return the first
entity whose title matches case-insensitively. -/
def findByNameAux (itemName : String) : List (String × Option Entity) → Option Entity
  | [] => none
  | (_, v) :: rest =>
      match v with
      | some e =>
          if upperL e.title.data = upperL (trimL itemName.data) then some e
          else findByNameAux itemName rest
      | none => findByNameAux itemName rest

/-- `Inventory.prototype.findItemByName` (source line 1059): case-insensitive
exact match on the trimmed query; returns `null` when nothing matches. -/
def Inventory.findItemByName (inv : Inventory) (itemName : String) : Option Entity :=
  findByNameAux itemName inv.items

/-- Entities seen when iterating an inventory and skipping absent slots
(the pattern `if (item) { ... }` used by the display loops). -/
def Inventory.liveItems (inv : Inventory) : List Entity :=
  inv.items.filterMap Prod.snd

theorem Inventory.getItem_addItem_self (inv : Inventory) (e : Entity) :
    (inv.addItem e).getItem e.id = some e := by
  simp [Inventory.addItem, Inventory.getItem, lookupAssoc_updAssoc_self]

theorem Inventory.getItem_removeItem_self (inv : Inventory) (itemId : String) :
    (inv.removeItem itemId).getItem itemId = none := by
  simp [Inventory.removeItem, Inventory.getItem, lookupAssoc_updAssoc_self]

theorem Inventory.lookup_removeItem_self (inv : Inventory) (itemId : String) :
    lookupAssoc (inv.removeItem itemId).items itemId = some none := by
  simp [Inventory.removeItem, lookupAssoc_updAssoc_self]

/-!
## Exits, locations, commands, console output
-/

/-- `Exit` (source line 965). -/
structure Exit where
  exitName : String
  destinationLocationId : String
  onExitCallback : Option Nat := none
deriving DecidableEq, Repr

/-- `Location` (source line 901). -/
structure Location where
  id : String
  title : String
  description : String := ""
  exits : List Exit := []
  itemCodes : List String := []
  items : Inventory := ⟨[]⟩
  npcCodes : List String := []
  npcs : Inventory := ⟨[]⟩
  visits : Nat := 0
  onTickCallback : Option Nat := none
deriving DecidableEq, Repr

/-- `Location.prototype.incrementVisits` (source line 958). -/
def Location.incrementVisits (loc : Location) : Location :=
  { loc with visits := loc.visits + 1 }

/-- `Location.prototype.getExit` (source line 935): first exit whose
name matches case-insensitively. -/
def Location.getExit (loc : Location) (exitName : String) : Option Exit :=
  loc.exits.find? (fun e => upperL e.exitName.data = upperL exitName.data)

/-- The command objects that can sit in `availableCommands`.  The fifteen
built-in commands are the ones returned by `Game.prototype.getCommands`
(source line 548); `story n` are story-supplied `Command` objects,
`foreign n` is a value that is not an `instanceof Command` (skipped by
the dispatch loop), and `base` is a bare `Command` instance whose
`execute` is the abstract-method guard. -/
inductive Command where
  | help | go | enter | examine | take | use | drop | inventoryCmd | look
  | ask | tell | talk | give | supergo | supertake
  | story : Nat → Command
  | base : Command
  | foreign : Nat → Command
deriving DecidableEq, Repr

/-- The `command instanceof Command` test used by `Game.prototype.parseCommand`
(source line 324). -/
def Command.isCommandInstance : Command → Bool
  | .foreign _ => false
  | _ => true

/-- `Command.prototype.execute` (source line 167): the base class always
throws `'Cannot execute base command'`. -/
def Command.executeBase : Except String Unit :=
  Except.error "Cannot execute base command"

/-- The list built by `Game.prototype.getCommands` (source line 777), in
source order. -/
def gameCommandList : List Command :=
  [.help, .go, .enter, .examine, .take, .use, .drop, .inventoryCmd, .look,
   .ask, .tell, .talk, .give, .supergo, .supertake]

/-- `Location.prototype.getCommands` (source line 949): always empty. -/
def Location.getCommands (_ : Location) : List Command := []

/-- One console display call, `display(message, displayType)`
(source line 108), by display type. -/
inductive Output where
  | message : String → Output
  | information : String → Output
  | errorText : String → Output
  | titleText : String → Output
  | sectionText : String → Output
  | subsectionText : String → Output
  | descriptionText : String → Output
  | commandText : String → Output
deriving DecidableEq, Repr

/-!
## The central timer (source lines 271-308)

`timers` holds story tick callbacks, modelled by numeric handles whose
behaviour on one iteration is an oracle `f : Nat → JsRet` giving the
JS value each callback returns.  `timerID` is the handle returned by
`setTimeout` (`0` = unset), and `pending` records whether a `runNext`
continuation is queued on the host event queue.
-/

/-- JS values a tick callback can return; only the literal `false`
unregisters it. -/
inductive JsRet where
  | rFalse | rTrue | rUndefined | rNull | rZero
  | rVal : Nat → JsRet
deriving DecidableEq, Repr

/-- The `for` loop inside `runNext` (source lines 288-293): visit `timers`
by index, call each, and `splice` out (with `i--`) any whose call
returned `=== false`.  Returns the final list and the trace of
callbacks invoked, in invocation order. -/
def spliceLoop (f : Nat → JsRet) (ts : List Nat) (i : Nat) : List Nat × List Nat :=
  if h : i < ts.length then
    let c := ts.get ⟨i, h⟩
    if f c = JsRet.rFalse then
      let r := spliceLoop f (ts.take i ++ ts.drop (i + 1)) i
      (r.1, c :: r.2)
    else
      let r := spliceLoop f ts (i + 1)
      (r.1, c :: r.2)
  else (ts, [])
termination_by ts.length - i
decreasing_by
  · simp only [List.length_append, List.length_take, List.length_drop]
    omega
  · omega

structure CentralTimer where
  timerID : Nat := 0
  timers : List Nat := []
  pending : Bool := false
deriving DecidableEq, Repr

/-- `centralTimer.add` (source line 276). -/
def CentralTimer.add (t : CentralTimer) (fn : Nat) : CentralTimer :=
  { t with timers := t.timers ++ [fn] }

/-- The body of `runNext` (source lines 286-296): if any callback is
registered, run one iteration over all of them and reschedule through
`setTimeout(runNext, 0)`, whose fresh nonzero handle is `newId`. -/
def runNextBody (f : Nat → JsRet) (newId : Nat) (t : CentralTimer) :
    CentralTimer × List Nat :=
  if t.timers.isEmpty then (t, [])
  else
    let r := spliceLoop f t.timers 0
    ({ t with timers := r.1, timerID := newId, pending := true }, r.2)

/-- `centralTimer.start` (source line 280): a no-op when `timerID` is
already truthy, otherwise run `runNext` once synchronously. -/
def CentralTimer.start (f : Nat → JsRet) (newId : Nat) (t : CentralTimer) :
    CentralTimer × List Nat :=
  if t.timerID ≠ 0 then (t, []) else runNextBody f newId t

/-- The queued `runNext` continuation firing from the host event queue. -/
def CentralTimer.fire (f : Nat → JsRet) (newId : Nat) (t : CentralTimer) :
    CentralTimer × List Nat :=
  runNextBody f newId { t with pending := false }

/-- `centralTimer.stop` (source line 299): `clearTimeout` the pending
iteration and zero `timerID`; `timers` is untouched. -/
def CentralTimer.stop (t : CentralTimer) : CentralTimer :=
  { t with pending := false, timerID := 0 }

/-- `centralTimer.clear` (source line 304): stop, then empty the list. -/
def CentralTimer.clear (t : CentralTimer) : CentralTimer :=
  { t.stop with timers := [] }

/-!
## Game state (source line 252)
-/

structure Game where
  name : String := ""
  availableCommands : List Command := []
  storyCommands : List Command := []
  locations : List (String × Location) := []
  currentLocation : Option String := none
  npcs : Inventory := ⟨[]⟩
  availableItems : Inventory := ⟨[]⟩
  inventory : Inventory := ⟨[]⟩
  centralTimer : CentralTimer := {}
deriving DecidableEq, Repr

/-- Dereference the `currentLocation` pointer. -/
def Game.currentLoc (g : Game) : Option Location :=
  g.currentLocation.bind (lookupAssoc g.locations)

/-!
## RegexCallbackCommand (source lines 200-246)

The constructor builds, for a command name `N` and optional preposition
`P`, the case-insensitive patterns

* short form: `^N[ ]+(.*)`
* long  form: `^N[ ]+(.*)[ ]+P[ ]+(.*)` (only when `P` is truthy)

with greedy `[ ]+` and `(.*)` and no end anchor.  The matcher below
implements the JS backtracking order for exactly this pattern shape:
the first `[ ]+` consumes a maximal space run and gives back one space
at a time on failure; `(.*)` tries the longest capture first and only
matches non-line-terminator characters; the `[ ]+` runs around the
preposition are forced maximal because the preposition starts with a
non-space character and a trailing `(.*)` always matches.
-/

/-- Characters matched by `.` in a JS regex without the `s` flag. -/
def isDotChar (c : Char) : Bool :=
  !(c = '\n' || c = '\r' || c = Char.ofNat 0x2028 || c = Char.ofNat 0x2029)

/-- Case-insensitive literal match of `pat` at the head of `s`; returns
the rest of `s` on success. -/
def ciEat : List Char → List Char → Option (List Char)
  | [], s => some s
  | _ :: _, [] => none
  | p :: ps, c :: cs => if p.toUpper = c.toUpper then ciEat ps cs else none

/-- Match `[ ]+(.*)` against `s` (the short-form pattern after the
command name): require at least one space, consume the maximal space
run, and capture the maximal run of `.`-characters. -/
def shortTail (s : List Char) : Option (List Char) :=
  match s with
  | ' ' :: _ => some ((s.dropWhile (· = ' ')).takeWhile isDotChar)
  | _ => none

/-- The short-form regex `^N[ ]+(.*)` applied to `text`: the capture, or
`none` when the pattern does not match. -/
def shortExtract (name text : List Char) : Option (List Char) :=
  match ciEat name text with
  | some r => shortTail r
  | none => none

/-- Match `[ ]+P[ ]+(.*)` against `rest`: maximal space run, the
preposition case-insensitively, another maximal space run, then capture
the maximal run of `.`-characters. -/
def prepTail (prep rest : List Char) : Option (List Char) :=
  match rest with
  | ' ' :: _ =>
      match ciEat prep (rest.dropWhile (· = ' ')) with
      | some r2 =>
          match r2 with
          | ' ' :: _ => some ((r2.dropWhile (· = ' ')).takeWhile isDotChar)
          | _ => none
      | none => none
  | _ => none

/-- Backtracking of the greedy `(.*)` before the preposition: try the
capture end position `i` from longest to shortest.  Returns
(capture1, capture2) for the first position where the tail matches. -/
def trySplits (prep s : List Char) : Nat → Option (List Char × List Char)
  | 0 =>
      match prepTail prep s with
      | some c2 => some ([], c2)
      | none => none
  | i + 1 =>
      match prepTail prep (s.drop (i + 1)) with
      | some c2 => some (s.take (i + 1), c2)
      | none => trySplits prep s i

/-- Backtracking of the greedy `[ ]+` after the command name: consume
`k` spaces, from the maximal run down to one, and for each try every
split for the following `(.*)`. -/
def tryKs (prep r : List Char) : Nat → Option (List Char × List Char)
  | 0 => none
  | k + 1 =>
      let s := r.drop (k + 1)
      match trySplits prep s ((s.takeWhile isDotChar).length) with
      | some res => some res
      | none => tryKs prep r k

/-- The long-form regex `^N[ ]+(.*)[ ]+P[ ]+(.*)` applied to `text`:
both captures, or `none` when the pattern does not match. -/
def longExtract (name prep text : List Char) : Option (List Char × List Char) :=
  match ciEat name text with
  | some r => tryKs prep r ((r.takeWhile (· = ' ')).length)
  | none => none

/-- Lines 225-236 of `RegexCallbackCommand.prototype.execute`: run the
long form first (when a preposition was configured — `if (preposition)`
is falsy for an absent or empty preposition), then fall back to the
short form.  `some (t1, some t2)` is a long-form match, `some (t1, none)`
a short-form match, and `none` leaves `target1` undefined. -/
def regexTargets (name : String) (prep : Option String) (text : String) :
    Option (String × Option String) :=
  let longRes :=
    match prep with
    | some p => if p = "" then none else longExtract name.data p.data text.data
    | none => none
  match longRes with
  | some (c1, c2) => some (String.mk c1, some (String.mk c2))
  | none =>
      match shortExtract name.data text.data with
      | some c1 => some (String.mk c1, none)
      | none => none

/-- Result of one `RegexCallbackCommand.prototype.execute` call. -/
inductive RegexExecResult where
  | ignored
  | usage
  | invoked : String → Option String → RegexExecResult
deriving DecidableEq, Repr

/-- `RegexCallbackCommand.prototype.execute` (source line 219): ignore
text that does not start (case-insensitively) with the command name;
print usage when no pattern produced a non-empty first capture;
otherwise invoke the callback with `(commandText, target1, target2)`. -/
def RegexCallbackCommand.execute (name : String) (prep : Option String)
    (text : String) : RegexExecResult :=
  if startsWithL (upperL text.data) (upperL name.data) then
    match regexTargets name prep text with
    | some (t1, t2) => if t1 = "" then .usage else .invoked t1 t2
    | none => .usage
  else .ignored

/-- Console output of an execute result: the usage branch prints
`'Usage:<br/>' + description` via `printInformation` (source line 240);
the other branches print nothing themselves. -/
def regexOutputs (description : String) : RegexExecResult → List Output
  | .usage => [.information ("Usage:<br/>" ++ description)]
  | _ => []

/-!
## Command dispatch (`Game.prototype.parseCommand`, source lines 316-328)

The loop offers `(commandText, commandParts)` to every entry of
`availableCommands` that is an `instanceof Command`.  A command's
`execute` is a story- or engine-supplied function of the game state;
dispatch is polymorphic in it, so `exec` is passed as an environment.
A JS `execute` can throw (the base class always does), which unwinds
the loop; `Except` models that.  The returned trace lists the commands
whose `execute` was entered, in invocation order.
-/

def parseCommand {σ : Type} (exec : Command → String → List String → σ → Except String σ)
    (text : String) (parts : List String) :
    List Command → σ → Except String σ × List Command
  | [], s => (.ok s, [])
  | c :: rest, s =>
      if c.isCommandInstance then
        match exec c text parts s with
        | .ok s' =>
            let r := parseCommand exec text parts rest s'
            (r.1, c :: r.2)
        | .error e => (.error e, [c])
      else parseCommand exec text parts rest s

/-!
## Navigation (`Game.prototype.goTo`, source lines 361-383) and
`Game.prototype.displayCurrentLocationInfo` (source lines 384-440)
-/

def spanLocation (s : String) : String :=
  "<span class=\"location\">" ++ s ++ "</span><br/>"

/-- The item/NPC listing loop: iterate the inventory keys in order,
re-read each slot through `getItem`, and list only truthy entries. -/
def invDisplayLines (inv : Inventory) : List String :=
  inv.items.filterMap (fun p =>
    match inv.getItem p.1 with
    | some e => some (spanLocation e.title)
    | none => none)

def displayCurrentLocationInfo (g : Game) : List Output :=
  match g.currentLoc with
  | none => []
  | some loc =>
      [.sectionText loc.title, .descriptionText loc.description]
      ++ (if loc.exits.isEmpty then []
          else [.information ("Available exits:<br/>"
                  ++ String.join (loc.exits.map (fun e => spanLocation e.exitName)))])
      ++ (let ls := invDisplayLines loc.items
          if ls.isEmpty then [] else [.information ("Items:<br/>" ++ String.join ls)])
      ++ (let ls := invDisplayLines loc.npcs
          if ls.isEmpty then [] else [.information ("NPCs:<br/>" ++ String.join ls)])

/-- `Game.prototype.goTo`: on an unregistered id, print an error and
change nothing; on a registered id, move there, bump its visit counter,
rebuild `availableCommands` from scratch as
`getCommands() ++ storyCommands ++ currentLocation.getCommands()`,
render the location, and reload the tick scheduler. -/
def Game.goTo (g : Game) (locationId : String) : Game × List Output :=
  match lookupAssoc g.locations locationId with
  | some loc =>
      let loc' := loc.incrementVisits
      let g1 : Game :=
        { g with
          currentLocation := some locationId,
          locations := updAssoc g.locations locationId loc',
          availableCommands := gameCommandList ++ g.storyCommands ++ loc'.getCommands }
      let out := displayCurrentLocationInfo g1
      let t1 := g1.centralTimer.clear
      let t2 := match loc'.onTickCallback with
                | some cb => t1.add cb
                | none => t1
      ({ g1 with centralTimer := t2 }, out)
  | none =>
      (g, [.errorText ("Error: \"" ++ locationId ++ "\" is not a valid location!")])

/-!
## The take and use command callbacks (source lines 624-668)

These are the closures handed to `RegexCallbackCommand`.  A call on a
game with no current location would throw a `TypeError` in JS, which
`Option` models as `none`.  Callback invocations are reported as data
(`UseOutcome`); the engine passes the resolved target entity to
`Item.prototype.onUse`.
-/

/-- What `item.onUse(target?)` does (source line 989): run the item's
use callback with the optional target when one is defined; otherwise,
when the target is an NPC, fall through to `NPC.prototype.onUse`
(source line 864), which runs the NPC's use callback or the canned
reply; otherwise do nothing. -/
inductive UseOutcome where
  | callback : Nat → Option Entity → UseOutcome
  | npcReaction : Option Nat → UseOutcome
  | noop
deriving DecidableEq, Repr

/-- `Item.prototype.onUse` (source line 989). -/
def Item.onUse (it : Item) (target : Option Entity) : UseOutcome :=
  match it.onUseCallback with
  | some cb => .callback cb target
  | none =>
      match target with
      | some (.npc n) => .npcReaction n.onUseCallback
      | _ => .noop

/-- `onUse` dispatched on whatever entity the name lookups produced
(an NPC found in an item inventory has its own `onUse`). -/
def Entity.onUse : Entity → Option Entity → UseOutcome
  | .item it, t => it.onUse t
  | .npc n, _ => .npcReaction n.onUseCallback

/-- The `take` command callback (source lines 624-641). -/
def takeExec (g : Game) (itemName : String) : Option (Game × List Output) := do
  let locId ← g.currentLocation
  let loc ← lookupAssoc g.locations locId
  match loc.items.findItemByName itemName with
  | some ent =>
      match ent with
      | .item it =>
          if it.isCollectable = true then
            let loc' := { loc with items := (loc.items.takeItem it.id).2 }
            let g' :=
              { g with
                locations := updAssoc g.locations locId loc',
                inventory := g.inventory.addItem (.item it) }
            some (g', [.information ("\"" ++ it.title ++ "\" added to inventory.")])
          else
            some (g, [.errorText "You cannot take this item"])
      | .npc _ => none
  | none => some (g, [.errorText ("Unknown item: " ++ itemName)])

/-- JS truthiness of the optional second regex capture: `undefined` and
the empty string are falsy. -/
def jsTruthyOpt : Option String → Bool
  | some s => s ≠ ""
  | none => false

/-- JS `a || b` over nullable lookups. -/
def jsOr {α : Type} : Option α → Option α → Option α
  | some x, _ => some x
  | none, b => b

/-- The `use` command callback (source lines 643-668), verbatim from
the source — including line 649, where the third fallback of the
*target* resolution searches the current location's NPC set for
`itemName` instead of `targetName`. -/
def useExec (g : Game) (itemName : String) (targetName : Option String) :
    Option (List Output × Option UseOutcome) := do
  let locId ← g.currentLocation
  let loc ← lookupAssoc g.locations locId
  let item? := jsOr (g.inventory.findItemByName itemName)
                    (loc.items.findItemByName itemName)
  let tn := targetName.getD ""
  let target? :=
    if jsTruthyOpt targetName then
      jsOr (jsOr (g.inventory.findItemByName tn)
                 (loc.items.findItemByName tn))
           (loc.npcs.findItemByName itemName)
    else none
  match item? with
  | none => some ([.errorText ("Can\x27t find: \"" ++ itemName ++ "\"")], none)
  | some item =>
      if jsTruthyOpt targetName then
        match target? with
        | none => some ([.errorText ("Can\x27t find: \"" ++ tn ++ "\"")], none)
        | some tgt => some ([], some (item.onUse (some tgt)))
      else some ([], some (item.onUse none))

/-!
## NPC reactions and topic matching (source lines 833-894)
-/

/-- Observable result of an NPC reaction hook. -/
inductive NpcOutcome where
  | callbackRun : Nat → NpcOutcome
  | reply : String → NpcOutcome
deriving DecidableEq, Repr

/-- `NPC.prototype.onAsk` (source line 833): record the topic, then run
the ask callback or the canned reply. -/
def NPC.onAsk (npc : NPC) (topic : String) : NPC × NpcOutcome :=
  let npc' := { npc with currentTopic := some topic }
  match npc.onAskCallback with
  | some cb => (npc', .callbackRun cb)
  | none => (npc', .reply "I don\x27t know anything about that.")

/-- `NPC.prototype.onTell` (source line 841). -/
def NPC.onTell (npc : NPC) (topic : String) : NPC × NpcOutcome :=
  let npc' := { npc with currentTopic := some topic }
  match npc.onTellCallback with
  | some cb => (npc', .callbackRun cb)
  | none => (npc', .reply "I don\x27t know anything about that.")

/-- `NPC.prototype.speakingAbout` (source line 872) on a list of topics:
uppercase the current topic (empty when unset), and when its trim is
non-empty report whether any topic occurs in it as a substring. -/
def NPC.speakingAbout (npc : NPC) (topics : List String) : Bool :=
  let statement := upperL (npc.currentTopic.getD "").data
  if (trimL statement).length > 0 then
    topics.any (fun t => substrL statement (upperL t.data))
  else false

/-!
## Game start (`Game.prototype.newGame`, source lines 442-475)
-/

/-- The external story/world-loading record consumed by `newGame`.
Fields that the source reads through `|| []` / `instanceof Array`
guards are `Option`s, `none` standing for `undefined`. -/
structure GameData where
  name : String := ""
  locations : Option (List Location) := none
  items : List Entity := []
  inventory : Option (List String) := none
  npcs : List Entity := []
  commands : List Command := []
  startLocation : String := ""
deriving Repr

/-- `Game.prototype.addItemToInventory` (source line 476). -/
def addItemToInventory (g : Game) (itemCode : String) : Game × List Output :=
  match g.availableItems.getItem itemCode with
  | none =>
      (g, [.errorText ("Unable to add item \"" ++ itemCode
              ++ "\" to inventory; Item does not exist.")])
  | some item =>
      ({ g with inventory := g.inventory.addItem item },
       [.information ("Item \"" ++ itemCode ++ "\" added to inventory")])

/-- The loop of `Game.prototype.addItemsToInventory` (source line 486). -/
def addItemsToInventoryList (g : Game) : List String → Game × List Output
  | [] => (g, [])
  | c :: cs =>
      let r1 := addItemToInventory g c
      let r2 := addItemsToInventoryList r1.1 cs
      (r2.1, r1.2 ++ r2.2)

/-- `Game.prototype.addItemsToInventory` (source line 486): a missing or
non-array code list is silently skipped. -/
def addItemsToInventory (g : Game) (codes : Option (List String)) : Game × List Output :=
  match codes with
  | some cs => addItemsToInventoryList g cs
  | none => (g, [])

/-- `Game.prototype.addItemsToLocation` (source line 505), for the
always-an-array code lists produced by the `Location` constructor. -/
def addItemsToLocation (g : Game) (loc : Location) : List String → Location × List Output
  | [] => (loc, [])
  | c :: cs =>
      match g.availableItems.getItem c with
      | none =>
          let r := addItemsToLocation g loc cs
          (r.1, .errorText ("Unable to add item \"" ++ c
                  ++ "\" to location; Item does not exist.") :: r.2)
      | some item =>
          let r := addItemsToLocation g { loc with items := loc.items.addItem item } cs
          (r.1, r.2)

/-- `Game.prototype.addNpcsToLocation` (source line 526). -/
def addNpcsToLocation (g : Game) (loc : Location) : List String → Location × List Output
  | [] => (loc, [])
  | c :: cs =>
      match g.npcs.getItem c with
      | none =>
          let r := addNpcsToLocation g loc cs
          (r.1, .errorText ("Unable to add NPC \"" ++ c
                  ++ "\" to location; NPC does not exist.") :: r.2)
      | some npc =>
          let r := addNpcsToLocation g { loc with npcs := loc.npcs.addItem npc } cs
          (r.1, r.2)

/-- The per-location registration loop of `newGame` (source lines 463-470). -/
def registerLocations (g : Game) : List Location → Game × List Output
  | [] => (g, [])
  | loc :: rest =>
      let r1 := addItemsToLocation g loc loc.itemCodes
      let r2 := addNpcsToLocation g r1.1 r1.1.npcCodes
      let g1 := { g with locations := updAssoc g.locations r2.1.id r2.1 }
      let r3 := registerLocations g1 rest
      (r3.1, r1.2 ++ r2.2 ++ r3.2)

/-- A `newGame` run either completes or is aborted by the `throw` on
source line 461; both carry the game state and console output produced
up to that point. -/
inductive NewGameResult where
  | ok : Game → List Output → NewGameResult
  | thrown : String → Game → List Output → NewGameResult
deriving Repr

/-- `Game.prototype.newGame` (source lines 442-475). -/
def Game.newGame (g0 : Game) (d : GameData) : NewGameResult :=
  let g1 : Game :=
    { g0 with
      availableCommands := [],
      name := d.name,
      storyCommands := d.commands,
      availableItems := Inventory.ofList d.items,
      inventory := ⟨[]⟩ }
  let r1 := addItemsToInventory g1 d.inventory
  let g2 := { r1.1 with npcs := Inventory.ofList d.npcs }
  let locs := d.locations.getD []
  if locs.isEmpty then
    .thrown ("Error: Location data empty for Story \"" ++ d.name ++ "\"") g2
      (r1.2 ++ [.errorText
        "<span class=\"error\">There was a problem starting this game.</span>"])
  else
    let r2 := registerLocations g2 locs
    let out3 : List Output :=
      [.titleText d.name,
       .information "Type \"<span class=\"help\">help</span>\" for a list of commands"]
    let r3 := r2.1.goTo d.startLocation
    .ok r3.1 (r1.2 ++ r2.2 ++ out3 ++ r3.2)

/-!
## Theorems
-/

/-- C1: `goTo` with an id that is not in the location map leaves the
whole game state (in particular `currentLocation` and every location's
visit counter) unchanged and prints an error, without throwing; `goTo`
with a registered id sets `currentLocation` to it, increments exactly
that location's visit counter by exactly one, and rebuilds
`availableCommands` from scratch out of the global command set, the
story commands and the (empty) location-local command set, so nothing
of the previous command list survives except through that rebuild. -/
theorem goTo_spec (g : Game) (locId : String) :
    (lookupAssoc g.locations locId = none →
      g.goTo locId
        = (g, [.errorText ("Error: \"" ++ locId ++ "\" is not a valid location!")]))
    ∧ (∀ loc, lookupAssoc g.locations locId = some loc →
        (g.goTo locId).1.currentLocation = some locId
        ∧ lookupAssoc (g.goTo locId).1.locations locId = some loc.incrementVisits
        ∧ (∀ id2, id2 ≠ locId →
            lookupAssoc (g.goTo locId).1.locations id2 = lookupAssoc g.locations id2)
        ∧ (g.goTo locId).1.availableCommands
            = gameCommandList ++ g.storyCommands ++ loc.incrementVisits.getCommands) := by
  constructor
  · intro h
    simp [Game.goTo, h]
  · intro loc h
    refine ⟨?_, ?_, ?_, ?_⟩
    · simp [Game.goTo, h]
    · simp [Game.goTo, h, lookupAssoc_updAssoc_self]
    · intro id2 h2
      simp [Game.goTo, h, lookupAssoc_updAssoc_other _ _ _ _ h2]
    · simp [Game.goTo, h]

def locA : Location :=
  { id := "a", title := "Room A", description := "The first room.",
    exits := [{ exitName := "South", destinationLocationId := "b" }] }

def locB : Location :=
  { id := "b", title := "Room B", description := "The second room." }

def g0 : Game :=
  { locations := [("a", locA), ("b", locB)], currentLocation := some "a",
    storyCommands := [.story 0], availableCommands := [.foreign 7] }

theorem goTo_spec_witness :
    (lookupAssoc g0.locations "nowhere" = none
      ∧ g0.goTo "nowhere"
          = (g0, [.errorText "Error: \"nowhere\" is not a valid location!"]))
    ∧ (lookupAssoc g0.locations "b" = some locB
      ∧ (g0.goTo "b").1.currentLocation = some "b"
      ∧ lookupAssoc (g0.goTo "b").1.locations "b" = some locB.incrementVisits
      ∧ lookupAssoc (g0.goTo "b").1.locations "a" = lookupAssoc g0.locations "a"
      ∧ (g0.goTo "b").1.availableCommands
          = gameCommandList ++ g0.storyCommands ++ locB.incrementVisits.getCommands) :=
  ⟨⟨by decide, (goTo_spec g0 "nowhere").1 (by decide)⟩,
   by decide,
   ((goTo_spec g0 "b").2 locB (by decide)).1,
   ((goTo_spec g0 "b").2 locB (by decide)).2.1,
   ((goTo_spec g0 "b").2 locB (by decide)).2.2.1 "a" (by decide),
   ((goTo_spec g0 "b").2 locB (by decide)).2.2.2⟩

/-- C2 (amended): whenever every offered `execute` returns normally
(acting as the state transformer `f`), `Game.prototype.parseCommand`
enters the `execute` of every `instanceof Command` entry of the list
exactly once, in list order, regardless of whether any of them
matched, and the state is the left fold of their effects — so two
commands matching the same line both fire, in order.  The unamended
claim fails when an `execute` throws: see
`parseCommand_base_aborts_dispatch`. -/
theorem parseCommand_spec {σ : Type}
    (exec : Command → String → List String → σ → Except String σ)
    (text : String) (parts : List String) (f : Command → σ → σ)
    (hexec : ∀ c s, exec c text parts s = .ok (f c s)) :
    ∀ (cmds : List Command) (s : σ),
      parseCommand exec text parts cmds s
        = (.ok (cmds.foldl (fun st c => if c.isCommandInstance then f c st else st) s),
           cmds.filter Command.isCommandInstance) := by
  intro cmds
  induction cmds with
  | nil => intro s; simp [parseCommand]
  | cons c rest ih =>
      intro s
      by_cases hc : c.isCommandInstance
      · simp [parseCommand, hc, hexec, ih]
      · simp [parseCommand, hc, ih, List.filter_cons,
              show Command.isCommandInstance c = false by
                revert hc; cases c <;> simp [Command.isCommandInstance]]

/-- Effects used by the dispatch examples: the state logs which
commands executed; a bare base `Command` throws its guard. -/
def execLog : Command → String → List String → List Command → Except String (List Command)
  | .base, _, _, _ =>
      match Command.executeBase with
      | .ok _ => .ok []
      | .error e => .error e
  | c, _, _, s => .ok (s ++ [c])

/-- Two same-named story commands both fire, in order, and the foreign
entry is skipped. -/
theorem parseCommand_spec_witness :
    (∀ c s, (fun c _ _ s => Except.ok (s ++ [c]) :
        Command → String → List String → List Command → Except String (List Command))
          c "go north" ["go", "north"] s = .ok (s ++ [c]))
    ∧ parseCommand (fun c _ _ s => Except.ok (s ++ [c])) "go north" ["go", "north"]
        [.story 0, .story 1, .foreign 7] []
        = (.ok [.story 0, .story 1], [.story 0, .story 1]) :=
  ⟨fun _ _ => rfl,
   by
    rw [parseCommand_spec (fun c _ _ s => Except.ok (s ++ [c])) "go north"
          ["go", "north"] (fun c s => s ++ [c]) (fun _ _ => rfl)]
    rfl⟩

/-- C2 counterexample: with a bare base `Command` first in
`availableCommands`, its `execute` throws and dispatch aborts, so the
`help` command — an `instanceof Command` sitting later in the list —
is never entered; the line is *not* offered to every Command instance. -/
theorem parseCommand_base_aborts_dispatch :
    parseCommand execLog "help" ["help"] [Command.base, Command.help] []
      = (.error "Cannot execute base command", [Command.base]) := rfl

/-- The description string of the `use` command (source line 643). -/
def useDescription : String :=
  "use &lt;<span class=\"command\">item</span>&gt; - use an item, e.g \"use gold key\" or \"use key on blue door\""

/-- C3: the `RegexCallbackCommand` built with name `use` and preposition
`on` extracts `target1 = "gold key"`, `target2 = "blue door"` from
`use gold key on blue door`; extracts `target1 = "flashlight"` with no
second target from `use flashlight`; and on the bare word `use` prints
the usage description instead of invoking the callback. -/
theorem regexUse_spec :
    RegexCallbackCommand.execute "use" (some "on") "use gold key on blue door"
      = .invoked "gold key" (some "blue door")
    ∧ RegexCallbackCommand.execute "use" (some "on") "use flashlight"
      = .invoked "flashlight" none
    ∧ RegexCallbackCommand.execute "use" (some "on") "use" = .usage
    ∧ regexOutputs useDescription (RegexCallbackCommand.execute "use" (some "on") "use")
      = [.information ("Usage:<br/>" ++ useDescription)] :=
  ⟨by decide, by decide, by decide, by decide⟩

/-- C10: any input line that starts (case-insensitively) with the
command's short name but from which neither regex form extracts a
non-empty first capture — for example a line whose first word merely
extends the name, like `golf` offered to `go` — makes `execute` print
the usage description rather than invoke the callback or fall through
silently. -/
theorem regexExecute_usage_on_prefix (name : String) (prep : Option String) (text : String)
    (hstart : startsWithL (upperL text.data) (upperL name.data) = true)
    (hcap : ∀ t1 t2, regexTargets name prep text = some (t1, t2) → t1 = "") :
    RegexCallbackCommand.execute name prep text = .usage := by
  cases h : regexTargets name prep text with
  | none => simp [RegexCallbackCommand.execute, hstart, h]
  | some p =>
      obtain ⟨t1, t2⟩ := p
      have ht := hcap t1 t2 h
      simp [RegexCallbackCommand.execute, hstart, h, ht]

theorem regexExecute_usage_on_prefix_witness :
    (startsWithL (upperL "golf".data) (upperL "go".data) = true)
    ∧ RegexCallbackCommand.execute "go" none "golf" = .usage :=
  ⟨by decide,
   regexExecute_usage_on_prefix "go" none "golf" (by decide)
     (fun t1 t2 h => by
        rw [show regexTargets "go" none "golf" = none from by decide] at h
        exact Option.noConfusion h)⟩

/-- C4: when the name resolves in the current location's item inventory
to a `Fixture` (an item with `collectable = false`), the take command
prints `You cannot take this item` and changes nothing; when it
resolves to a collectible `Item`, afterwards the item's id reads back
absent from the location's item inventory and the item is present
exactly once in the player's inventory under its id. -/
theorem takeExec_spec (g : Game) (locId : String) (loc : Location)
    (itemName : String) (it : Item)
    (hcur : g.currentLocation = some locId)
    (hloc : lookupAssoc g.locations locId = some loc)
    (hfind : loc.items.findItemByName itemName = some (.item it))
    (hkeys : countKey g.inventory.items it.id ≤ 1) :
    (it.collectable = false →
      takeExec g itemName = some (g, [.errorText "You cannot take this item"]))
    ∧ (it.collectable = true →
      ∃ g' out, takeExec g itemName = some (g', out)
        ∧ (∃ loc', lookupAssoc g'.locations locId = some loc'
             ∧ loc'.items.getItem it.id = none)
        ∧ g'.inventory.getItem it.id = some (.item it)
        ∧ countKey g'.inventory.items it.id = 1) := by
  constructor
  · intro hcoll
    simp [takeExec, hcur, hloc, hfind, Item.isCollectable, hcoll]
  · intro hcoll
    have heq : takeExec g itemName
        = some ({ g with
                  locations := updAssoc g.locations locId
                    { loc with items := (loc.items.takeItem it.id).2 },
                  inventory := g.inventory.addItem (.item it) },
                [.information ("\"" ++ it.title ++ "\" added to inventory.")]) := by
      simp [takeExec, hcur, hloc, hfind, Item.isCollectable, hcoll]
    refine ⟨_, _, heq, ?_, ?_, ?_⟩
    · exact ⟨_, lookupAssoc_updAssoc_self .., Inventory.getItem_removeItem_self ..⟩
    · simpa [Entity.id] using Inventory.getItem_addItem_self g.inventory (.item it)
    · simpa [Inventory.addItem, Entity.id] using
        countKey_updAssoc g.inventory.items it.id (some (.item it)) hkeys

def cabinetFixture : Item := Fixture "cabinet" "Filing Cabinet" "A heavy cabinet." none true

def keyItem : Item := { id := "key", title := "Gold Key" }

def locC4 : Location :=
  { id := "r", title := "Office",
    items := ⟨[("cabinet", some (.item cabinetFixture)), ("key", some (.item keyItem))]⟩ }

def gC4 : Game := { locations := [("r", locC4)], currentLocation := some "r" }

theorem takeExec_spec_witness :
    (takeExec gC4 "filing cabinet" = some (gC4, [.errorText "You cannot take this item"]))
    ∧ (∃ g' out, takeExec gC4 "gold key" = some (g', out)
        ∧ (∃ loc', lookupAssoc g'.locations "r" = some loc'
             ∧ loc'.items.getItem "key" = none)
        ∧ g'.inventory.getItem "key" = some (.item keyItem)
        ∧ countKey g'.inventory.items "key" = 1) :=
  ⟨(takeExec_spec gC4 "r" locC4 "filing cabinet" cabinetFixture
      (by decide) (by decide) (by decide) (by decide)).1 (by decide),
   (takeExec_spec gC4 "r" locC4 "gold key" keyItem
      (by decide) (by decide) (by decide) (by decide)).2 (by decide)⟩

theorem updAssoc_updAssoc_same {α : Type} (l : List (String × α)) (k : String) (v v' : α) :
    updAssoc (updAssoc l k v) k v' = updAssoc l k v' := by
  induction l with
  | nil => simp [updAssoc]
  | cons p rest ih =>
      by_cases hp : p.1 = k
      · simp [updAssoc, hp]
      · simp [updAssoc, hp, ih]

theorem mem_updAssoc {α : Type} (l : List (String × α)) (k : String) (v : α)
    (p : String × α) (hp : p ∈ updAssoc l k v) : p = (k, v) ∨ p ∈ l := by
  induction l with
  | nil =>
      simp [updAssoc] at hp
      exact Or.inl (by simp [hp])
  | cons q rest ih =>
      by_cases hq : q.1 = k
      · simp [updAssoc, hq] at hp
        rcases hp with hp | hp
        · exact Or.inl (by simp [hp, ← hq])
        · exact Or.inr (List.mem_cons_of_mem _ hp)
      · simp [updAssoc, hq] at hp
        rcases hp with hp | hp
        · exact Or.inr (by simp [hp])
        · rcases ih hp with h | h
          · exact Or.inl h
          · exact Or.inr (List.mem_cons_of_mem _ h)

theorem findByNameAux_eq_none (name : String) (l : List (String × Option Entity))
    (h : ∀ k e, (k, some e) ∈ l → upperL e.title.data ≠ upperL (trimL name.data)) :
    findByNameAux name l = none := by
  induction l with
  | nil => rfl
  | cons p rest ih =>
      obtain ⟨k, v⟩ := p
      cases v with
      | none =>
          simpa [findByNameAux] using
            ih (fun k' e' hm => h k' e' (List.mem_cons_of_mem _ hm))
      | some e =>
          have hne : ¬ upperL e.title.data = upperL (trimL name.data) :=
            h k e (List.mem_cons_self _ _)
          simpa [findByNameAux, hne] using
            ih (fun k' e' hm => h k' e' (List.mem_cons_of_mem _ hm))

/-- C5 (amended): after `addItem(x)`, `getItem(x.id)` returns `x`;
after a subsequent `removeItem(x.id)`, `getItem(x.id)` is absent even
though the key `x.id` is still present in the underlying map as a
tombstone slot, and — provided no entity stored in the inventory
before the round trip has a title matching `x.title` (case-insensitive
on the trimmed query) — `findItemByName(x.title)` returns null, the
lookup skipping the tombstoned slot.  Unamended, the `findItemByName`
clause fails when another same-titled entity is present: see
`inventory_findItemByName_shadowed`. -/
theorem inventory_round_trip (inv : Inventory) (x : Entity) :
    ((inv.addItem x).getItem x.id = some x)
    ∧ (((inv.addItem x).removeItem x.id).getItem x.id = none)
    ∧ (lookupAssoc ((inv.addItem x).removeItem x.id).items x.id = some none)
    ∧ ((∀ k e, (k, some e) ∈ inv.items →
          upperL e.title.data ≠ upperL (trimL x.title.data)) →
        ((inv.addItem x).removeItem x.id).findItemByName x.title = none) := by
  refine ⟨Inventory.getItem_addItem_self .., Inventory.getItem_removeItem_self ..,
    Inventory.lookup_removeItem_self .., ?_⟩
  intro h
  have hitems : ((inv.addItem x).removeItem x.id).items
      = updAssoc inv.items x.id none := by
    simp [Inventory.addItem, Inventory.removeItem, updAssoc_updAssoc_same]
  rw [Inventory.findItemByName, hitems]
  refine findByNameAux_eq_none _ _ ?_
  intro k e hm
  rcases mem_updAssoc _ _ _ _ hm with hp | hp
  · exact absurd hp (by simp)
  · exact h k e hp

def itemKeyA : Item := { id := "a", title := "Key" }

def itemKeyB : Item := { id := "b", title := "Key" }

def invC5 : Inventory := ⟨[("a", some (.item itemKeyA))]⟩

/-- C5 counterexample: in an inventory already holding a different
entity titled `Key`, adding and then removing `itemKeyB` (also titled
`Key`) leaves `getItem "b"` absent as claimed, but
`findItemByName "Key"` returns the shadowing entity instead of null. -/
theorem inventory_findItemByName_shadowed :
    ((invC5.addItem (.item itemKeyB)).removeItem "b").getItem "b" = none
    ∧ ((invC5.addItem (.item itemKeyB)).removeItem "b").findItemByName "Key"
        = some (.item itemKeyA) := by decide

theorem inventory_round_trip_witness :
    (((⟨[]⟩ : Inventory).addItem (.item itemKeyB)).getItem "b" = some (.item itemKeyB))
    ∧ ((((⟨[]⟩ : Inventory).addItem (.item itemKeyB)).removeItem "b").getItem "b" = none)
    ∧ (lookupAssoc ((((⟨[]⟩ : Inventory).addItem (.item itemKeyB)).removeItem "b")).items "b"
        = some none)
    ∧ ((((⟨[]⟩ : Inventory).addItem (.item itemKeyB)).removeItem "b").findItemByName "Key"
        = none) :=
  have h := inventory_round_trip ⟨[]⟩ (.item itemKeyB)
  ⟨h.1, h.2.1, h.2.2.1, h.2.2.2 (by intro k e hm; exact absurd hm (List.not_mem_nil _))⟩

def useKeyItem : Item := { id := "key", title := "Key" }

def guardNpc : NPC := { id := "guard", title := "Guard" }

def locC6 : Location :=
  { id := "hall", title := "Hall",
    npcs := ⟨[("guard", some (.npc guardNpc))]⟩ }

def gC6 : Game :=
  { locations := [("hall", locC6)], currentLocation := some "hall",
    inventory := ⟨[("key", some (.item useKeyItem))]⟩ }

/-- C6: evidence for the target-resolution defect of the `use` command.
The player holds an item titled `Key` and the current location has an
NPC titled `Guard`.  On `use key on guard` the engine resolves the
item, but — because the NPC-set fallback on source line 649 searches
for `itemName` instead of `targetName` — fails to resolve the target,
prints `Can't find: "guard"`, and invokes no `onUse`; yet
`findItemByName "guard"` on the location's NPC set does resolve the
guard, and `onUse` on the item with that NPC as target would delegate
to the NPC's use-reaction, as the claim describes. -/
theorem useExec_npc_target_bug :
    useExec gC6 "key" (some "guard")
      = some ([.errorText "Can\x27t find: \"guard\""], none)
    ∧ locC6.npcs.findItemByName "guard" = some (.npc guardNpc)
    ∧ (Entity.item useKeyItem).onUse (some (.npc guardNpc)) = .npcReaction none := by
  decide

theorem get_append_len {α : Type} (pre : List α) (c : α) (rest : List α)
    (h : pre.length < (pre ++ c :: rest).length) :
    (pre ++ c :: rest).get ⟨pre.length, h⟩ = c := by
  induction pre with
  | nil => rfl
  | cons a as ih => exact ih (by simp)

theorem take_append_len {α : Type} (pre ts : List α) :
    (pre ++ ts).take pre.length = pre := by
  induction pre with
  | nil => rfl
  | cons a as ih => simp [ih]

theorem drop_append_len {α : Type} (pre ts : List α) :
    (pre ++ ts).drop pre.length = ts := by
  induction pre with
  | nil => rfl
  | cons a as ih => simp [ih]

/-- One pass of the `runNext` for-loop visits every registered callback
exactly once, in registration order, and keeps exactly those whose
invocation did not return the literal `false`. -/
theorem spliceLoop_spec (f : Nat → JsRet) :
    ∀ (ts pre : List Nat),
      spliceLoop f (pre ++ ts) pre.length
        = (pre ++ ts.filter (fun c => !(f c == JsRet.rFalse)), ts) := by
  intro ts
  induction ts with
  | nil =>
      intro pre
      rw [spliceLoop]
      simp
  | cons c rest ih =>
      intro pre
      have hlt : pre.length < (pre ++ c :: rest).length := by simp
      have hget := get_append_len pre c rest hlt
      have hdrop : (pre ++ c :: rest).drop (pre.length + 1) = rest := by
        rw [show pre ++ c :: rest = (pre ++ [c]) ++ rest by simp]
        rw [show pre.length + 1 = (pre ++ [c]).length by simp]
        exact drop_append_len _ _
      have htake : (pre ++ c :: rest).take pre.length = pre := take_append_len pre _
      rw [spliceLoop]
      rw [dif_pos hlt]
      by_cases hf : f ((pre ++ c :: rest).get ⟨pre.length, hlt⟩) = JsRet.rFalse
      · rw [if_pos hf]
        rw [htake, hdrop, ih pre]
        rw [hget] at hf
        simp [hget, List.filter_cons, hf]
        exact hget
      · rw [if_neg hf]
        rw [hget] at hf
        have ih2 := ih (pre ++ [c])
        simp only [List.append_assoc, List.cons_append, List.nil_append,
          List.length_append, List.length_cons, List.length_nil] at ih2
        rw [show pre.length + 1 = pre.length + (0 + 1) from by omega] at *
        rw [ih2]
        simp [hget, List.filter_cons, hf]
        exact hget

/-- C7: `start()` is a no-op while `timerID` is truthy; a `start()` from
idle with a non-empty callback list and every later `fire` of the
queued continuation run one iteration that invokes every registered
callback once in registration order, keep exactly the callbacks whose
call did not return the literal `false` (any other value, `undefined`
included, keeps them), and reschedule by queueing the next iteration on
the host event queue; `stop()` drops the queued iteration and resets
`timerID` without touching the list; `clear()` stops and empties the
list. -/
theorem centralTimer_spec (f : Nat → JsRet) (newId : Nat) (t : CentralTimer) :
    (t.timerID ≠ 0 → t.start f newId = (t, []))
    ∧ (t.timerID = 0 → t.timers ≠ [] →
        (t.start f newId).2 = t.timers
        ∧ (t.start f newId).1.timers = t.timers.filter (fun c => !(f c == JsRet.rFalse))
        ∧ (t.start f newId).1.pending = true
        ∧ (t.start f newId).1.timerID = newId)
    ∧ (t.timers ≠ [] →
        (t.fire f newId).2 = t.timers
        ∧ (t.fire f newId).1.timers = t.timers.filter (fun c => !(f c == JsRet.rFalse))
        ∧ (t.fire f newId).1.pending = true)
    ∧ (t.stop.timers = t.timers ∧ t.stop.pending = false ∧ t.stop.timerID = 0)
    ∧ (t.clear.timers = [] ∧ t.clear.pending = false)
    ∧ (∀ c, (!(f c == JsRet.rFalse)) = false ↔ f c = JsRet.rFalse) := by
  have hloop := spliceLoop_spec f t.timers []
  simp only [List.nil_append, List.length_nil] at hloop
  refine ⟨?_, ?_, ?_, ?_, ?_, ?_⟩
  · intro h
    simp [CentralTimer.start, h]
  · intro h0 hne
    have hemp : t.timers.isEmpty = false := by
      cases ht : t.timers with
      | nil => exact absurd ht hne
      | cons a as => rfl
    refine ⟨?_, ?_, ?_, ?_⟩ <;>
      simp [CentralTimer.start, runNextBody, h0, hemp, hloop]
  · intro hne
    have hemp : t.timers.isEmpty = false := by
      cases ht : t.timers with
      | nil => exact absurd ht hne
      | cons a as => rfl
    refine ⟨?_, ?_, ?_⟩ <;> simp [CentralTimer.fire, runNextBody, hemp, hloop]
  · exact ⟨rfl, rfl, rfl⟩
  · exact ⟨rfl, rfl⟩
  · intro c
    constructor
    · intro h
      simpa using h
    · intro h
      simp [h]

def timerC7 : CentralTimer := { timerID := 0, timers := [10, 20, 30] }

def retC7 (c : Nat) : JsRet := if c = 20 then .rFalse else .rUndefined

theorem centralTimer_spec_witness :
    (timerC7.timerID = 0 ∧ timerC7.timers ≠ [])
    ∧ (timerC7.start retC7 5).2 = [10, 20, 30]
    ∧ (timerC7.start retC7 5).1.timers = [10, 30]
    ∧ (timerC7.start retC7 5).1.pending = true
    ∧ ({ timerID := 5, timers := [10, 30], pending := true } : CentralTimer).stop.timers
        = [10, 30]
    ∧ ({ timerID := 5, timers := [10, 30], pending := true } : CentralTimer).clear.timers
        = [] :=
  have h := centralTimer_spec retC7 5 timerC7
  have h2 := h.2.1 (by decide) (by decide)
  ⟨⟨by decide, by decide⟩, h2.1,
   by rw [h2.2.1]; decide,
   h2.2.2.1,
   (centralTimer_spec retC7 5
     ({ timerID := 5, timers := [10, 30], pending := true } : CentralTimer)).2.2.2.1.1,
   (centralTimer_spec retC7 5
     ({ timerID := 5, timers := [10, 30], pending := true } : CentralTimer)).2.2.2.2.1.1⟩

theorem startsWithL_iff (p : List Char) : ∀ (l : List Char),
    startsWithL l p = true ↔ ∃ rest, l = p ++ rest := by
  induction p with
  | nil =>
      intro l
      simp [startsWithL]
  | cons c cs ih =>
      intro l
      cases l with
      | nil => simp [startsWithL]
      | cons a as =>
          by_cases hac : a = c
          · subst hac
            simp [startsWithL, ih]
          · simp [startsWithL, hac]

theorem substrL_iff (p : List Char) : ∀ (l : List Char),
    substrL l p = true ↔ ∃ pre post, l = pre ++ p ++ post := by
  intro l
  induction l with
  | nil =>
      constructor
      · intro h
        have hp : p = [] := by simpa [substrL, List.isEmpty_iff] using h
        exact ⟨[], [], by simp [hp]⟩
      · rintro ⟨pre, post, hp⟩
        rcases List.append_eq_nil.mp hp.symm with ⟨h1, _⟩
        rcases List.append_eq_nil.mp h1 with ⟨_, hp0⟩
        simp [substrL, hp0]
  | cons a as ih =>
      constructor
      · intro h
        have h' : startsWithL (a :: as) p = true ∨ substrL as p = true := by
          simpa [substrL] using h
        rcases h' with h1 | h1
        · rcases (startsWithL_iff p _).mp h1 with ⟨rest, hr⟩
          exact ⟨[], rest, by simpa using hr⟩
        · rcases ih.mp h1 with ⟨pre, post, hp⟩
          exact ⟨a :: pre, post, by simp [hp]⟩
      · rintro ⟨pre, post, hp⟩
        cases pre with
        | nil =>
            have hs : startsWithL (a :: as) p = true :=
              (startsWithL_iff p _).mpr ⟨post, by simpa using hp⟩
            simp [substrL, hs]
        | cons b bs =>
            have hp' : a :: as = b :: ((bs ++ p) ++ post) := by simpa using hp
            have has : as = (bs ++ p) ++ post := (List.cons_eq_cons.mp hp').2
            have hsub : substrL as p = true := ih.mpr ⟨bs, post, by simpa using has⟩
            simp [substrL, hsub]

/-- C8 (amended): `speakingAbout(topics)` returns true iff the NPC's
current topic, uppercased, trims to something non-empty AND contains
some element of `topics` (uppercased) as a contiguous substring — in
particular it returns false whenever `currentTopic` is unset, empty,
or whitespace-only; and after `onAsk(t)` or `onTell(t)` the NPC's
`currentTopic` is exactly the passed string `t`.  Unamended (without
the non-whitespace condition on the current topic), the iff fails:
see `speakingAbout_whitespace_false`. -/
theorem speakingAbout_spec (npc : NPC) (topics : List String) (t : String) :
    (npc.speakingAbout topics = true ↔
      ((trimL (upperL (npc.currentTopic.getD "").data)).length > 0
        ∧ ∃ tp ∈ topics, ∃ pre post,
            upperL (npc.currentTopic.getD "").data = pre ++ upperL tp.data ++ post))
    ∧ ((npc.onAsk t).1.currentTopic = some t)
    ∧ ((npc.onTell t).1.currentTopic = some t) := by
  refine ⟨?_, ?_, ?_⟩
  · by_cases hlen : (trimL (upperL (npc.currentTopic.getD "").data)).length > 0
    · simp [NPC.speakingAbout, hlen, List.any_eq_true, substrL_iff]
    · simp [NPC.speakingAbout, hlen]
  · cases h : npc.onAskCallback <;> simp [NPC.onAsk, h]
  · cases h : npc.onTellCallback <;> simp [NPC.onTell, h]

def npcWS : NPC := { id := "b", title := "Bernard", currentTopic := some " " }

/-- C8 counterexample: with the whitespace-only current topic `" "` and
the topic list `[" "]`, whose element does occur (case-insensitively)
as a substring of the current topic, the claimed iff demands `true`,
but `speakingAbout` returns `false`. -/
theorem speakingAbout_whitespace_false :
    npcWS.speakingAbout [" "] = false
    ∧ npcWS.currentTopic = some " "
    ∧ substrL (upperL (npcWS.currentTopic.getD "").data) (upperL " ".data) = true := by
  decide

theorem addItemToInventory_preserves (g : Game) (c : String) :
    (addItemToInventory g c).1.locations = g.locations
    ∧ (addItemToInventory g c).1.currentLocation = g.currentLocation := by
  cases h : g.availableItems.getItem c <;> simp [addItemToInventory, h]

theorem addItemsToInventoryList_preserves (cs : List String) :
    ∀ g : Game, (addItemsToInventoryList g cs).1.locations = g.locations
      ∧ (addItemsToInventoryList g cs).1.currentLocation = g.currentLocation := by
  induction cs with
  | nil => intro g; simp [addItemsToInventoryList]
  | cons c cs ih =>
      intro g
      have h1 := addItemToInventory_preserves g c
      have h2 := ih (addItemToInventory g c).1
      exact ⟨by simpa [addItemsToInventoryList, h1.1] using h2.1,
             by simpa [addItemsToInventoryList, h1.2] using h2.2⟩

theorem addItemsToInventory_preserves (codes : Option (List String)) (g : Game) :
    (addItemsToInventory g codes).1.locations = g.locations
    ∧ (addItemsToInventory g codes).1.currentLocation = g.currentLocation := by
  cases codes with
  | none => simp [addItemsToInventory]
  | some cs => simpa [addItemsToInventory] using addItemsToInventoryList_preserves cs g

theorem addItemsToInventory_locations (codes : Option (List String)) (g : Game) :
    (addItemsToInventory g codes).1.locations = g.locations :=
  (addItemsToInventory_preserves codes g).1

theorem addItemsToInventory_currentLocation (codes : Option (List String)) (g : Game) :
    (addItemsToInventory g codes).1.currentLocation = g.currentLocation :=
  (addItemsToInventory_preserves codes g).2

theorem getLast?_append_singleton {α : Type} (l : List α) (a : α) :
    (l ++ [a]).getLast? = some a := by
  induction l with
  | nil => rfl
  | cons x xs ih =>
      rw [List.cons_append, List.getLast?_cons]
      simp [ih]

/-- C9 (amended): for game data whose location list is empty or absent,
`newGame` prints an error on the display channel and then aborts
initialisation by throwing, with no location registered and no
navigation to a start location.  The throw is, however, not the only
abrupt-termination path in the engine: the abstract base
`Command.prototype.execute` also throws, and an `availableCommands`
list holding a bare base `Command` aborts `parseCommand` with it — see
`parseCommand_second_abrupt_path`. -/
theorem newGame_empty_locations (g : Game) (d : GameData)
    (h : d.locations = none ∨ d.locations = some []) :
    ∃ g' out,
      g.newGame d
        = .thrown ("Error: Location data empty for Story \"" ++ d.name ++ "\"") g' out
      ∧ g'.locations = g.locations
      ∧ g'.currentLocation = g.currentLocation
      ∧ out.getLast? = some (.errorText
          "<span class=\"error\">There was a problem starting this game.</span>") := by
  rcases h with h | h <;>
    (simp only [Game.newGame, h, Option.getD_none, Option.getD_some, List.isEmpty_nil]
     refine ⟨_, _, rfl, ?_, ?_, ?_⟩
     · simp [addItemsToInventory_locations]
     · simp [addItemsToInventory_currentLocation]
     · exact getLast?_append_singleton _ _)

def dEmpty : GameData := { name := "The Silence" }

theorem newGame_empty_locations_witness :
    ∃ g' out,
      Game.newGame {} dEmpty
        = .thrown ("Error: Location data empty for Story \"" ++ "The Silence" ++ "\"") g' out
      ∧ g'.locations = ({} : Game).locations
      ∧ g'.currentLocation = ({} : Game).currentLocation
      ∧ out.getLast? = some (.errorText
          "<span class=\"error\">There was a problem starting this game.</span>") :=
  newGame_empty_locations {} dEmpty (Or.inl rfl)

/-- C9 counterexample: an abrupt termination distinct from the
empty-location throw — dispatching over an `availableCommands` list
that holds a bare base `Command` makes `parseCommand` end with the
base-class guard exception, on a plain game state with locations
registered and no `newGame` involved. -/
theorem parseCommand_second_abrupt_path :
    (parseCommand execLog "look" ["look"] [Command.base] []).1
      = .error "Cannot execute base command"
    ∧ "Cannot execute base command"
        ≠ "Error: Location data empty for Story \"The Silence\"" :=
  ⟨rfl, by decide⟩

end AdventureMachine
